import Mathlib

/-!
# Verification of the `yasumi` Japanese public-holiday library

Shallow embedding of `src/datelike.rs`, `src/public_holiday.rs` and
`src/lib.rs`.  Dates model `chrono::NaiveDate`: a proleptic Gregorian
`(year, month, day)` triple, representable for years
`-262144 ..= 262143` (chrono's `MIN_YEAR`/`MAX_YEAR`).  Rust functions
returning `Option` become Lean `Option`; places where the Rust code can
*panic* (`unwrap` on `None`, overflowing `NaiveDate + Duration`) are
modelled by an explicit `none`/default marked in the doc comment of each
definition, together with theorems showing where those branches are
unreachable.
-/

/-- chrono's minimum representable year (`i32::MIN >> 13`). -/
def MIN_YEAR : Int := -262144

/-- chrono's maximum representable year (`i32::MAX >> 13`). -/
def MAX_YEAR : Int := 262143

/-- Proleptic-Gregorian leap-year test, as implemented by chrono. -/
def isLeapYear (y : Int) : Bool :=
  (y % 4 == 0 && y % 100 != 0) || y % 400 == 0

/-- Number of days in month `m` of year `y` (proleptic Gregorian). -/
def monthLength (y : Int) (m : Nat) : Nat :=
  if m == 2 then (if isLeapYear y then 29 else 28)
  else if m == 4 || m == 6 || m == 9 || m == 11 then 30
  else 31

/-- A calendar date, mirroring `chrono::NaiveDate`'s observable value:
`year()`, `month()` (1-12) and `day()` (1-31). -/
structure Date where
  year : Int
  month : Nat
  day : Nat
deriving DecidableEq, Repr

/-- The dates actually representable as a `chrono::NaiveDate`. -/
def Date.valid (d : Date) : Bool :=
  MIN_YEAR ≤ d.year && d.year ≤ MAX_YEAR &&
  1 ≤ d.month && d.month ≤ 12 &&
  1 ≤ d.day && d.day ≤ monthLength d.year d.month

/-- `chrono::NaiveDate::from_ymd_opt`. -/
def fromYmd? (y : Int) (m d : Nat) : Option Date :=
  if (Date.mk y m d).valid then some ⟨y, m, d⟩ else none

/-- Days since 1970-01-01 (Howard Hinnant's `days_from_civil`); this is
the day count underlying `chrono`'s ordinal representation, used here
only to define the weekday. -/
def Date.toRataDie (d : Date) : Int :=
  let y : Int := if d.month ≤ 2 then d.year - 1 else d.year
  let era : Int := y / 400
  let yoe : Int := y - era * 400
  let mp : Nat := if d.month ≤ 2 then d.month + 9 else d.month - 3
  let doy : Int := (153 * (mp : Int) + 2) / 5 + (d.day : Int) - 1
  let doe : Int := yoe * 365 + yoe / 4 - yoe / 100 + doy
  era * 146097 + doe - 719468

/-- `chrono::Weekday::number_from_monday`: Monday = 1, ..., Sunday = 7.
1970-01-01 was a Thursday. -/
def Date.weekdayFromMonday (d : Date) : Nat :=
  ((d.toRataDie + 3) % 7).toNat + 1

/-- `NaiveDate::succ_opt`: the next calendar day, `none` past the
maximum representable date. -/
def Date.succ? (d : Date) : Option Date :=
  if d.day < monthLength d.year d.month then some ⟨d.year, d.month, d.day + 1⟩
  else if d.month < 12 then some ⟨d.year, d.month + 1, 1⟩
  else if d.year < MAX_YEAR then some ⟨d.year + 1, 1, 1⟩
  else none

/-- `NaiveDate::pred_opt`: the previous calendar day, `none` before the
minimum representable date. -/
def Date.pred? (d : Date) : Option Date :=
  if 1 < d.day then some ⟨d.year, d.month, d.day - 1⟩
  else if 1 < d.month then some ⟨d.year, d.month - 1, monthLength d.year (d.month - 1)⟩
  else if MIN_YEAR < d.year then some ⟨d.year - 1, 12, 31⟩
  else none

/-- `date + chrono::Duration::days(n)` for `n ≥ 0`: `n`-fold successor;
`none` models the panic of chrono's `Add` on overflow past the maximum
representable date. -/
def addDays? (d : Date) : Nat → Option Date
  | 0 => some d
  | n + 1 => (addDays? d n).bind Date.succ?

/-- Chronological (lexicographic) order on dates, as `chrono` compares
`NaiveDate`s. -/
def Date.lt (a b : Date) : Bool :=
  a.year < b.year ||
  (a.year == b.year && (a.month < b.month || (a.month == b.month && a.day < b.day)))

/-- `a <= b` on dates. -/
def Date.le (a b : Date) : Bool :=
  Date.lt a b || a == b

/-- `week_day` from `src/public_holiday.rs`: the date of the `week`-th
occurrence (1-5) of weekday `weekday` (1-7, Monday-first) in `date`'s
month.  The *outer* `Option` models the panics of the two
`+ chrono::Duration` additions (possible only in the last representable
month); `some none` is the function's own `None` return. -/
def week_day (date : Date) (week weekday : Nat) : Option (Option Date) :=
  if ¬(1 ≤ week ∧ week ≤ 5) then some none
  else if ¬(1 ≤ weekday ∧ weekday ≤ 7) then some none
  else
    match fromYmd? date.year date.month 1 with
    | none => some none
    | some first_day_of_month =>
      let days_to_first_weekday := (weekday + 7 - first_day_of_month.weekdayFromMonday) % 7
      match addDays? first_day_of_month days_to_first_weekday with
      | none => none
      | some first_target_day =>
        match addDays? first_target_day (7 * (week - 1)) with
        | none => none
        | some target_date =>
          if target_date.month == date.month then some (some target_date) else some none

/-- `week_day(date, w, k).unwrap().day()` as used inside the holiday
rules.  The `0` default marks the two panic paths (outer overflow, and
`unwrap` of `None`); the rules only call this with `w ∈ {2, 3}` and
`k = 1`, where both paths are unreachable (see the C10 theorem). -/
def weekDayDay (date : Date) (week weekday : Nat) : Nat :=
  match week_day date week weekday with
  | some (some t) => t.day
  | _ => 0

/-- `vernal_equinox_day` from `src/public_holiday.rs`.  The source
computes `(i + 0.242194*(year-1980) - ((year-1980)/4.0).floor()).floor()
as u32` in `f64`; here the same value is computed exactly in integers
scaled by 10^6 (Lean's `Int` division by a positive divisor is floor
division) (every quantity is a multiple of 10^-6, and the `f64`
round-off of below 10^-9 for representable years never crosses a floor
boundary, the fractional parts never being within 10^-6 of an integer
except at an exact integer reached from above).  The final
`if`/`min` models Rust's saturating `as u32` cast of the floored value. -/
def vernal_equinox_day (year : Int) : Nat :=
  if year ≤ 1948 then 0
  else
    let i : Int :=
      if 1851 ≤ year ∧ year ≤ 1899 then 19827700
      else if 1900 ≤ year ∧ year ≤ 1979 then 20835700
      else if 1980 ≤ year ∧ year ≤ 2099 then 20843100
      else if 2100 ≤ year ∧ year ≤ 2150 then 21851000
      else 0
    let scaled : Int := i + 242194 * (year - 1980) - 1000000 * ((year - 1980) / 4)
    let day : Int := scaled / 1000000
    if day < 0 then 0 else min day.toNat 4294967295

/-- `autumnal_equinox_day` from `src/public_holiday.rs`; same modelling
as `vernal_equinox_day`, with the autumn coefficients. -/
def autumnal_equinox_day (year : Int) : Nat :=
  if year ≤ 1948 then 0
  else
    let i : Int :=
      if 1851 ≤ year ∧ year ≤ 1899 then 22258800
      else if 1900 ≤ year ∧ year ≤ 1979 then 23258800
      else if 1980 ≤ year ∧ year ≤ 2099 then 23248800
      else if 2100 ≤ year ∧ year ≤ 2150 then 24248800
      else 0
    let scaled : Int := i + 242194 * (year - 1980) - 1000000 * ((year - 1980) / 4)
    let day : Int := scaled / 1000000
    if day < 0 then 0 else min day.toNat 4294967295

/-- The `PublicHoliday` trait: a predicate over dates plus a name. -/
structure PublicHoliday where
  is_holiday : Date → Bool
  name : String

/-- 元日 -/
def NewYearsDay : PublicHoliday where
  is_holiday d := d.month == 1 && d.day == 1
  name := "元日"

/-- 成人の日 -/
def ComingOfAgeDay : PublicHoliday where
  is_holiday d :=
    if d.year ≤ 1999 && d.month == 1 && d.day == 15 then true
    else if 2000 ≤ d.year && d.month == 1 && d.day == weekDayDay d 2 1 then true
    else false
  name := "成人の日"

/-- 建国記念の日 -/
def NationalFoundationDay : PublicHoliday where
  is_holiday d := 1967 ≤ d.year && d.month == 2 && d.day == 11
  name := "建国記念の日"

/-- 天皇誕生日 -/
def EmperorsBirthday : PublicHoliday where
  is_holiday d :=
    if 1948 ≤ d.year && d.year ≤ 1988 && d.month == 4 && d.day == 29 then true
    else if 1989 ≤ d.year && d.year ≤ 2018 && d.month == 12 && d.day == 23 then true
    else if 2020 ≤ d.year && d.month == 2 && d.day == 23 then true
    else false
  name := "天皇誕生日"

/-- 春分の日 -/
def VernalEquinoxDay : PublicHoliday where
  is_holiday d :=
    if d.month == 3 && d.day == vernal_equinox_day d.year then true else false
  name := "春分の日"

/-- みどりの日 -/
def GreeneryDay : PublicHoliday where
  is_holiday d :=
    if 1989 ≤ d.year && d.year ≤ 2006 && d.month == 4 && d.day == 29 then true
    else if 2007 ≤ d.year && d.month == 5 && d.day == 4 then true
    else false
  name := "みどりの日"

/-- 昭和の日 -/
def ShowaDay : PublicHoliday where
  is_holiday d :=
    if 2007 ≤ d.year && d.month == 4 && d.day == 29 then true else false
  name := "昭和の日"

/-- 憲法記念日 -/
def ConstitutionMemorialDay : PublicHoliday where
  is_holiday d := d.month == 5 && d.day == 3
  name := "憲法記念日"

/-- こどもの日 -/
def ChildrensDay : PublicHoliday where
  is_holiday d := d.month == 5 && d.day == 5
  name := "こどもの日"

/-- 海の日 -/
def MarineDay : PublicHoliday where
  is_holiday d :=
    if d.year == 2020 then d == ⟨2020, 7, 23⟩
    else if d.year == 2021 then d == ⟨2021, 7, 22⟩
    else if 1996 ≤ d.year && d.year ≤ 2002 && d.month == 7 && d.day == 20 then true
    else if 2003 ≤ d.year && d.month == 7 && d.day == weekDayDay d 3 1 then true
    else false
  name := "海の日"

/-- 山の日 -/
def MountainDay : PublicHoliday where
  is_holiday d :=
    if d.year == 2020 then d == ⟨2020, 8, 10⟩
    else if d.year == 2021 then d == ⟨2021, 8, 8⟩
    else if 2016 ≤ d.year && d.month == 8 && d.day == 11 then true
    else false
  name := "山の日"

/-- 敬老の日 -/
def RespectForTheAgedDay : PublicHoliday where
  is_holiday d :=
    if 1966 ≤ d.year && d.year ≤ 2002 && d.month == 9 && d.day == 15 then true
    else if 2003 ≤ d.year && d.month == 9 && d.day == weekDayDay d 3 1 then true
    else false
  name := "敬老の日"

/-- 秋分の日 -/
def AutumnalEquinoxDay : PublicHoliday where
  is_holiday d :=
    if d.month == 9 && d.day == autumnal_equinox_day d.year then true else false
  name := "秋分の日"

/-- 体育の日 -/
def HealthAndSportsDay : PublicHoliday where
  is_holiday d :=
    if 1966 ≤ d.year && d.year ≤ 1999 && d.month == 10 && d.day == 10 then true
    else if 2000 ≤ d.year && d.year ≤ 2019 && d.month == 10 && d.day == weekDayDay d 2 1 then true
    else false
  name := "体育の日"

/-- スポーツの日 -/
def SportsDay : PublicHoliday where
  is_holiday d :=
    if d.year == 2020 then d == ⟨2020, 7, 24⟩
    else if d.year == 2021 then d == ⟨2021, 7, 23⟩
    else if 2020 ≤ d.year && d.month == 10 && d.day == weekDayDay d 2 1 then true
    else false
  name := "スポーツの日"

/-- 文化の日 -/
def CultureDay : PublicHoliday where
  is_holiday d := d.month == 11 && d.day == 3
  name := "文化の日"

/-- 勤労感謝の日 -/
def LaborThanksgivingDay : PublicHoliday where
  is_holiday d := d.month == 11 && d.day == 23
  name := "勤労感謝の日"

/-- 皇太子・明仁親王の結婚の儀 -/
def ImperialEventsTheWeddingCeremonyOfCrownPrinceAkihito : PublicHoliday where
  is_holiday d := d == ⟨1959, 4, 10⟩
  name := "皇太子・明仁親王の結婚の儀"

/-- 昭和天皇の大喪の礼 -/
def ImperialEventsTheFuneralOfEmperorShowa : PublicHoliday where
  is_holiday d := d == ⟨1989, 2, 24⟩
  name := "昭和天皇の大喪の礼"

/-- 即位の礼正殿の儀 -/
def ImperialEventsTheCeremonyOfTheEnthronementOfTheEmperor : PublicHoliday where
  is_holiday d := d == ⟨1990, 11, 12⟩
  name := "即位の礼正殿の儀"

/-- 皇太子・皇太子徳仁親王の結婚の儀 -/
def ImperialEventsTheWeddingCeremonyOfCrownPrinceNaruhito : PublicHoliday where
  is_holiday d := d == ⟨1993, 6, 9⟩
  name := "皇太子・皇太子徳仁親王の結婚の儀"

/-- 天皇の即位の日 -/
def ImperialEventsTheDayOfTheEmperorsEnthronement : PublicHoliday where
  is_holiday d := d == ⟨2019, 5, 1⟩
  name := "天皇の即位の日"

/-- 即位礼正殿の儀 -/
def ImperialEventsTheEnthronementCeremony : PublicHoliday where
  is_holiday d := d == ⟨2019, 10, 22⟩
  name := "即位礼正殿の儀"

/-- The fixed 23-element rule array `HOLIDAYS`, in source order. -/
def HOLIDAYS : List PublicHoliday := [
  NewYearsDay,
  ComingOfAgeDay,
  NationalFoundationDay,
  EmperorsBirthday,
  VernalEquinoxDay,
  GreeneryDay,
  ShowaDay,
  ConstitutionMemorialDay,
  ChildrensDay,
  MarineDay,
  MountainDay,
  RespectForTheAgedDay,
  AutumnalEquinoxDay,
  HealthAndSportsDay,
  SportsDay,
  CultureDay,
  LaborThanksgivingDay,
  ImperialEventsTheWeddingCeremonyOfCrownPrinceAkihito,
  ImperialEventsTheFuneralOfEmperorShowa,
  ImperialEventsTheCeremonyOfTheEnthronementOfTheEmperor,
  ImperialEventsTheWeddingCeremonyOfCrownPrinceNaruhito,
  ImperialEventsTheDayOfTheEmperorsEnthronement,
  ImperialEventsTheEnthronementCeremony]

/-- The body of `substitute_holiday`'s backward `loop`, with explicit
fuel.  `none` (no result within `fuel` visited days) also covers the
panic of `current_date -= days(1)` below the minimum representable
date; the theorem for C8 shows that fuel 7 always suffices, a Sunday
occurring among any 7 consecutive visited days and stopping the loop. -/
def subLoop : Date → Nat → Option (Option String)
  | _, 0 => none
  | c, n + 1 =>
    match HOLIDAYS.filter (fun h => h.is_holiday c) with
    | [] => some none
    | h :: _ =>
      if c.weekdayFromMonday == 7 then some (some (h.name ++ " 振替休日"))
      else
        match c.pred? with
        | some c' => subLoop c' n
        | none => none

/-- `substitute_holiday` from `src/public_holiday.rs`.  The `pred?`
`none` branch models the panic of `*date - days(1)` (unreachable, the
year being at least 1973); `getD none` extracts the loop's result,
fuel 7 being sufficient by the C8 theorem. -/
def substitute_holiday (date : Date) : Option String :=
  if date.year < 1973 then none
  else if date.weekdayFromMonday == 7 then none
  else
    match date.pred? with
    | none => none
    | some c => (subLoop c 7).getD none

/-- The `for holiday in HOLIDAYS.iter()` first-match loop of
`calc_holiday_without_national_holiday`. -/
def firstHolidayName : List PublicHoliday → Date → Option String
  | [], _ => none
  | h :: t, d => if h.is_holiday d then some h.name else firstHolidayName t d

/-- `calc_holiday_without_national_holiday` from `src/lib.rs` (on an
already-normalized date). -/
def calc_holiday_without_national_holiday (date : Date) : Option String :=
  match firstHolidayName HOLIDAYS date with
  | some name => some name
  | none =>
    match substitute_holiday date with
    | some substitute => some substitute
    | none => none

/-- `calc_holiday` from `src/lib.rs` (on an already-normalized date):
the top-level determination, adding the 国民の休日 bridge. -/
def calc_holiday (date : Date) : Option String :=
  match calc_holiday_without_national_holiday date with
  | some holiday_name => some holiday_name
  | none =>
    if date.weekdayFromMonday == 7 then none
    else
      match date.succ? with
      | none => none
      | some next_day =>
        match date.pred? with
        | none => none
        | some prev_day =>
          if (calc_holiday_without_national_holiday next_day).isSome &&
             (calc_holiday_without_national_holiday prev_day).isSome
          then some "国民の休日"
          else none

/-- `is_holiday_name` / `holiday_name` from `src/lib.rs`, with the
`DateLike` adapter collapsed to its result: the input is the adapter's
`Option<NaiveDate>` (`none` for unparseable text or the `None` variant),
and `date.date()?` becomes the `Option.bind`. -/
def holiday_name (input : Option Date) : Option String :=
  input.bind calc_holiday

/-- `is_holiday` from `src/lib.rs`. -/
def is_holiday (input : Option Date) : Bool :=
  (holiday_name input).isSome

/-- `is_no_workday` from `src/lib.rs`.  The result `none` models the
panic of `date.date().unwrap()` on an input the adapter rejects. -/
def is_no_workday (input : Option Date) : Option Bool :=
  match input with
  | none => none
  | some date =>
    some (if date.weekdayFromMonday == 6 || date.weekdayFromMonday == 7 then true
          else is_holiday (some date))

/-- `month_holidays` from `src/lib.rs`: the `for day in 1..=31` loop
collecting `(date, name)` pairs. -/
def month_holidays (year : Int) (month : Nat) : List (Date × String) :=
  (List.range' 1 31).filterMap (fun day =>
    match fromYmd? year month day with
    | some date => (holiday_name (some date)).map (fun name => (date, name))
    | none => none)

/-- `year_holidays` from `src/lib.rs`: the nested
`for month in 1..=12 { for day in 1..=31 { ... } }` loop. -/
def year_holidays (year : Int) : List (Date × String) :=
  (List.range' 1 12).flatMap (fun month =>
    (List.range' 1 31).filterMap (fun day =>
      match fromYmd? year month day with
      | some date => (holiday_name (some date)).map (fun name => (date, name))
      | none => none))

/-- The `while date <= end_date` loop of `between`, with explicit fuel.
`none` models the panic of `date.succ_opt().unwrap()` past the maximum
representable date (the fuel chosen by `between` is exact, so `none`
never stands for exhaustion on in-range inputs). -/
def betweenLoop (e : Date) : Date → Nat → Option (List (Date × String))
  | _, 0 => some []
  | c, n + 1 =>
    if Date.le c e then
      let entry := (holiday_name (some c)).map (fun name => (c, name))
      match c.succ? with
      | none => none
      | some c' =>
        (betweenLoop e c' n).map (fun rest =>
          match entry with
          | some p => p :: rest
          | none => rest)
    else some []

/-- `between` (and its alias `holidays`) from `src/lib.rs`.  `none`
models a panic: either `start_date.date().unwrap()` /
`end_date.date().unwrap()` on unparseable input, or the successor
`unwrap` inside the loop at the maximum representable date.  The fuel
`gap + 1` covers exactly the days `start ..= end`. -/
def between (start_date end_date : Option Date) : Option (List (Date × String)) :=
  match start_date, end_date with
  | some s, some e =>
    betweenLoop e s ((e.toRataDie - s.toRataDie + 1).toNat)
  | _, _ => none

/-! ## Basic facts about the date model -/

theorem monthLength_bounds (y : Int) (m : Nat) :
    28 ≤ monthLength y m ∧ monthLength y m ≤ 31 := by
  unfold monthLength
  split <;> [skip; split] <;> first | omega | (split <;> omega)

theorem Date.pred?_isSome (d : Date) (h : MIN_YEAR < d.year) : d.pred?.isSome := by
  unfold Date.pred?
  repeat' split
  all_goals first | rfl | omega

theorem Date.pred?_valid (d e : Date) (hv : d.valid = true) (h : d.pred? = some e) :
    e.valid = true := by
  unfold Date.pred? at h
  unfold Date.valid at hv ⊢
  simp only [Bool.and_eq_true, decide_eq_true_eq] at hv ⊢
  have h28 := monthLength_bounds d.year (d.month - 1)
  have h28b : monthLength (d.year - 1) 12 = 31 := rfl
  split at h <;> [skip; split at h] <;> [skip; skip; split at h]
  · cases h; simp only [Date.year, Date.month, Date.day] at *; omega
  · cases h; simp only [Date.year, Date.month, Date.day] at *; omega
  · cases h; simp only [Date.year, Date.month, Date.day] at *; omega
  · cases h

theorem Date.pred?_year (d e : Date) (h : d.pred? = some e) :
    d.year - 1 ≤ e.year ∧ e.year ≤ d.year := by
  unfold Date.pred? at h
  split at h <;> [skip; split at h] <;> [skip; skip; split at h] <;>
    first
    | (cases h; simp only [Date.year]; omega)
    | cases h

theorem isLeapYear_iff (y : Int) :
    isLeapYear y = true ↔ (y % 4 = 0 ∧ ¬(y % 100 = 0)) ∨ y % 400 = 0 := by
  simp [isLeapYear]

theorem Date.valid_iff (d : Date) :
    d.valid = true ↔
      MIN_YEAR ≤ d.year ∧ d.year ≤ MAX_YEAR ∧ 1 ≤ d.month ∧ d.month ≤ 12 ∧
      1 ≤ d.day ∧ d.day ≤ monthLength d.year d.month := by
  unfold Date.valid
  simp only [Bool.and_eq_true, decide_eq_true_eq]
  tauto

theorem Date.toRataDie_day (y : Int) (m a : Nat) :
    (Date.mk y m a).toRataDie = (Date.mk y m 1).toRataDie + a - 1 := by
  unfold Date.toRataDie
  simp only [Date.year, Date.month, Date.day]
  split <;> push_cast <;> ring_nf <;> omega

theorem Date.toRataDie_pred? (d e : Date) (hv : d.valid = true) (h : d.pred? = some e) :
    e.toRataDie = d.toRataDie - 1 := by
  obtain ⟨y, m, a⟩ := d
  rw [Date.valid_iff] at hv
  simp only [Date.year, Date.month, Date.day] at hv
  obtain ⟨-, -, hm1, hm2, ha1, ha2⟩ := hv
  unfold Date.pred? at h
  simp only [Date.year, Date.month, Date.day] at h
  split at h
  · cases h
    rw [Date.toRataDie_day y m a, Date.toRataDie_day y m (a - 1)]
    omega
  · split at h
    · cases h
      have ha0 : a = 1 := by omega
      subst ha0
      interval_cases m <;>
        [skip;
         (by_cases hL : isLeapYear y = true <;>
           (unfold Date.toRataDie monthLength
            simp only [Date.year, Date.month, Date.day, hL]
            rw [isLeapYear_iff] at hL
            norm_num
            push_cast
            omega));
         skip; skip; skip; skip; skip; skip; skip; skip; skip] <;>
        (unfold Date.toRataDie monthLength
         simp only [Date.year, Date.month, Date.day]
         norm_num
         omega)
    · split at h
      · cases h
        unfold Date.toRataDie
        have hm0 : m = 1 := by omega
        have ha0 : a = 1 := by omega
        subst hm0; subst ha0
        norm_num
        omega
      · cases h

theorem Date.weekdayFromMonday_bounds (d : Date) :
    1 ≤ d.weekdayFromMonday ∧ d.weekdayFromMonday ≤ 7 := by
  unfold Date.weekdayFromMonday
  have h1 : 0 ≤ (d.toRataDie + 3) % 7 := Int.emod_nonneg _ (by norm_num)
  have h2 : (d.toRataDie + 3) % 7 < 7 := Int.emod_lt_of_pos _ (by norm_num)
  omega

/-! ## Lemmas about `addDays?` and `week_day` -/

theorem addDays?_within (y : Int) (m : Nat) :
    ∀ n a : Nat, a + n ≤ monthLength y m →
      addDays? ⟨y, m, a⟩ n = some ⟨y, m, a + n⟩ := by
  intro n
  induction n with
  | zero => intro a _; rfl
  | succ n ih =>
    intro a h
    show (addDays? ⟨y, m, a⟩ n).bind Date.succ? = _
    rw [ih a (by omega)]
    show Date.succ? ⟨y, m, a + n⟩ = _
    unfold Date.succ?
    simp only [Date.year, Date.month, Date.day]
    rw [if_pos (by omega)]
    congr 2

theorem addDays?_add (d : Date) (p q : Nat) :
    addDays? d (p + q) = (addDays? d p).bind (fun e => addDays? e q) := by
  induction q with
  | zero => cases h : addDays? d p <;> simp [Nat.add_zero, h, addDays?]
  | succ q ih =>
    show (addDays? d (p + q)).bind Date.succ? = _
    rw [ih]
    cases addDays? d p with
    | none => rfl
    | some e => rfl

theorem addDays?_cross_mid (y : Int) (m a n : Nat) (hm : 1 ≤ m) (hm2 : m < 12)
    (ha : 1 ≤ a) (ha2 : a ≤ monthLength y m) (h1 : monthLength y m < a + n)
    (h2 : a + n ≤ monthLength y m + monthLength y (m + 1)) :
    addDays? ⟨y, m, a⟩ n = some ⟨y, m + 1, a + n - monthLength y m⟩ := by
  have hn : n = (monthLength y m - a) + (1 + (a + n - monthLength y m - 1)) := by omega
  rw [hn, addDays?_add, addDays?_within y m (monthLength y m - a) a (by omega)]
  have hstep : Date.succ? ⟨y, m, a + (monthLength y m - a)⟩ = some ⟨y, m + 1, 1⟩ := by
    unfold Date.succ?
    simp only [Date.year, Date.month, Date.day]
    rw [if_neg (by omega), if_pos (by omega)]
  show addDays? _ (1 + _) = _
  rw [addDays?_add]
  show (Date.succ? _).bind _ = _
  rw [hstep]
  show addDays? _ _ = _
  rw [addDays?_within _ _ _ 1 (by omega)]
  congr 2
  omega

theorem addDays?_cross_dec (y : Int) (a n : Nat) (hy : y < MAX_YEAR)
    (ha : 1 ≤ a) (ha2 : a ≤ 31) (h1 : 31 < a + n) (h2 : a + n ≤ 62) :
    addDays? ⟨y, 12, a⟩ n = some ⟨y + 1, 1, a + n - 31⟩ := by
  have hml : monthLength y 12 = 31 := rfl
  have hml2 : monthLength (y + 1) 1 = 31 := rfl
  have hn : n = (31 - a) + (1 + (a + n - 32)) := by omega
  rw [hn, addDays?_add, addDays?_within y 12 (31 - a) a (by omega)]
  have hstep : Date.succ? ⟨y, 12, a + (31 - a)⟩ = some ⟨y + 1, 1, 1⟩ := by
    unfold Date.succ?
    simp only [Date.year, Date.month, Date.day]
    rw [if_neg (by omega), if_neg (by omega), if_pos (by omega)]
  show addDays? _ (1 + _) = _
  rw [addDays?_add]
  show (Date.succ? _).bind _ = _
  rw [hstep]
  show addDays? _ _ = _
  rw [addDays?_within _ _ _ 1 (by omega)]
  congr 2
  omega

theorem addDays?_overflow (a n : Nat) (ha : 1 ≤ a) (ha2 : a ≤ 31) (h : 31 < a + n) :
    addDays? ⟨MAX_YEAR, 12, a⟩ n = none := by
  have hml : monthLength MAX_YEAR 12 = 31 := rfl
  have hn : n = (31 - a) + (1 + (a + n - 32)) := by omega
  rw [hn, addDays?_add, addDays?_within MAX_YEAR 12 (31 - a) a (by omega)]
  show addDays? _ (1 + _) = _
  rw [addDays?_add]
  show ((addDays? _ 0).bind Date.succ?).bind _ = _
  show (Date.succ? ⟨MAX_YEAR, 12, a + (31 - a)⟩).bind _ = _
  have : Date.succ? ⟨MAX_YEAR, 12, a + (31 - a)⟩ = none := by
    unfold Date.succ?
    simp only [Date.year, Date.month, Date.day]
    rw [if_neg (by omega), if_neg (by omega), if_neg (by omega)]
  rw [this]
  rfl

theorem fromYmd?_first (d : Date) (hv : d.valid = true) :
    fromYmd? d.year d.month 1 = some ⟨d.year, d.month, 1⟩ := by
  unfold fromYmd?
  rw [if_pos]
  rw [Date.valid_iff] at hv ⊢
  have := monthLength_bounds d.year d.month
  simp only [Date.year, Date.month, Date.day] at hv ⊢
  omega

/-- The offset (0-6 days) from the first of the month to the first
occurrence of weekday `k`, as computed inside `week_day`. -/
def firstWeekdayOffset (d : Date) (k : Nat) : Nat :=
  (k + 7 - (Date.mk d.year d.month 1).weekdayFromMonday) % 7

theorem firstWeekdayOffset_lt (d : Date) (k : Nat) : firstWeekdayOffset d k < 7 :=
  Nat.mod_lt _ (by norm_num)

theorem week_day_in_month (d : Date) (hv : d.valid = true) (w k : Nat)
    (hw : 1 ≤ w ∧ w ≤ 5) (hk : 1 ≤ k ∧ k ≤ 7)
    (ht : 1 + firstWeekdayOffset d k + 7 * (w - 1) ≤ monthLength d.year d.month) :
    week_day d w k =
      some (some ⟨d.year, d.month, 1 + firstWeekdayOffset d k + 7 * (w - 1)⟩) := by
  have hoff : firstWeekdayOffset d k < 7 := firstWeekdayOffset_lt d k
  have hml := monthLength_bounds d.year d.month
  unfold week_day
  rw [if_neg (not_not_intro hw), if_neg (not_not_intro hk)]
  simp only [fromYmd?_first d hv]
  show (match addDays? ⟨d.year, d.month, 1⟩ (firstWeekdayOffset d k) with
    | none => none
    | some first_target_day =>
      match addDays? first_target_day (7 * (w - 1)) with
      | none => none
      | some target_date =>
        if target_date.month == d.month then some (some target_date) else some none) = _
  rw [addDays?_within d.year d.month (firstWeekdayOffset d k) 1 (by omega)]
  show (match addDays? ⟨d.year, d.month, 1 + firstWeekdayOffset d k⟩ (7 * (w - 1)) with
    | none => none
    | some target_date =>
      if target_date.month == d.month then some (some target_date) else some none) = _
  rw [addDays?_within d.year d.month (7 * (w - 1)) (1 + firstWeekdayOffset d k) (by omega)]
  simp only [Date.month, beq_self_eq_true, if_true]

theorem week_day_next_month (d : Date) (hv : d.valid = true) (w k : Nat)
    (hw : 1 ≤ w ∧ w ≤ 5) (hk : 1 ≤ k ∧ k ≤ 7)
    (ht : monthLength d.year d.month < 1 + firstWeekdayOffset d k + 7 * (w - 1))
    (hsafe : ¬(d.month = 12 ∧ d.year = MAX_YEAR)) :
    week_day d w k = some none := by
  have hoff : firstWeekdayOffset d k < 7 := firstWeekdayOffset_lt d k
  have hml := monthLength_bounds d.year d.month
  have hv' := hv
  rw [Date.valid_iff] at hv'
  unfold week_day
  rw [if_neg (not_not_intro hw), if_neg (not_not_intro hk)]
  simp only [fromYmd?_first d hv]
  show (match addDays? ⟨d.year, d.month, 1⟩ (firstWeekdayOffset d k) with
    | none => none
    | some first_target_day =>
      match addDays? first_target_day (7 * (w - 1)) with
      | none => none
      | some target_date =>
        if target_date.month == d.month then some (some target_date) else some none) = _
  rw [addDays?_within d.year d.month (firstWeekdayOffset d k) 1 (by omega)]
  show (match addDays? ⟨d.year, d.month, 1 + firstWeekdayOffset d k⟩ (7 * (w - 1)) with
    | none => none
    | some target_date =>
      if target_date.month == d.month then some (some target_date) else some none) = _
  by_cases hm12 : d.month = 12
  · have hy : d.year < MAX_YEAR := by
      rcases hv' with ⟨-, hy2, -⟩
      rcases Int.lt_or_lt_of_ne (fun he => hsafe ⟨hm12, he⟩) with h | h
      · exact h
      · omega
    have hml12 : monthLength d.year 12 = 31 := rfl
    rw [hm12] at ht ⊢
    rw [addDays?_cross_dec d.year (1 + firstWeekdayOffset d k) (7 * (w - 1)) hy
      (by omega) (by omega) (by omega) (by omega)]
    simp only [Date.month]
    rfl
  · have hml2 := monthLength_bounds d.year (d.month + 1)
    rw [addDays?_cross_mid d.year d.month (1 + firstWeekdayOffset d k) (7 * (w - 1))
      (by omega) (by omega) (by omega) (by omega) (by omega) (by omega)]
    simp only [Date.month]
    have : (d.month + 1 == d.month) = false := by simp
    rw [this]
    rfl

theorem weekDayDay_bounds (d : Date) (hv : d.valid = true) (w : Nat) (hw : 1 ≤ w ∧ w ≤ 4) :
    7 * (w - 1) + 1 ≤ weekDayDay d w 1 ∧ weekDayDay d w 1 ≤ 7 * w := by
  have hoff := firstWeekdayOffset_lt d 1
  have hml := monthLength_bounds d.year d.month
  unfold weekDayDay
  rw [week_day_in_month d hv w 1 (by omega) (by omega) (by omega)]
  simp only [Date.day]
  omega

/-! ## Equinox approximator lemmas -/

theorem vernal_equinox_day_degrade (y : Int) (h : y ≤ 1948 ∨ 2150 < y) :
    vernal_equinox_day y = 0 := by
  unfold vernal_equinox_day
  rcases h with h | h
  · rw [if_pos h]
  · rw [if_neg (show ¬y ≤ 1948 by omega)]
    simp only
    rw [if_neg (show ¬(1851 ≤ y ∧ y ≤ 1899) by omega),
      if_neg (show ¬(1900 ≤ y ∧ y ≤ 1979) by omega),
      if_neg (show ¬(1980 ≤ y ∧ y ≤ 2099) by omega),
      if_neg (show ¬(2100 ≤ y ∧ y ≤ 2150) by omega),
      if_pos (show (0 + 242194 * (y - 1980) - 1000000 * ((y - 1980) / 4)) / 1000000 < 0 by
        omega)]

theorem autumnal_equinox_day_degrade (y : Int) (h : y ≤ 1948 ∨ 2150 < y) :
    autumnal_equinox_day y = 0 := by
  unfold autumnal_equinox_day
  rcases h with h | h
  · rw [if_pos h]
  · rw [if_neg (show ¬y ≤ 1948 by omega)]
    simp only
    rw [if_neg (show ¬(1851 ≤ y ∧ y ≤ 1899) by omega),
      if_neg (show ¬(1900 ≤ y ∧ y ≤ 1979) by omega),
      if_neg (show ¬(1980 ≤ y ∧ y ≤ 2099) by omega),
      if_neg (show ¬(2100 ≤ y ∧ y ≤ 2150) by omega),
      if_pos (show (0 + 242194 * (y - 1980) - 1000000 * ((y - 1980) / 4)) / 1000000 < 0 by
        omega)]

theorem autumnal_equinox_day_bounds (y : Int) (h1 : 1949 ≤ y) (h2 : y ≤ 2150) :
    22 ≤ autumnal_equinox_day y ∧ autumnal_equinox_day y ≤ 24 := by
  unfold autumnal_equinox_day
  rw [if_neg (show ¬y ≤ 1948 by omega)]
  simp only
  rw [if_neg (show ¬(1851 ≤ y ∧ y ≤ 1899) by omega)]
  by_cases hb1 : y ≤ 1979
  · rw [if_pos (show 1900 ≤ y ∧ y ≤ 1979 by omega)]
    rw [if_neg (show ¬(23258800 + 242194 * (y - 1980) -
        1000000 * ((y - 1980) / 4)) / 1000000 < 0 by omega)]
    omega
  · rw [if_neg (show ¬(1900 ≤ y ∧ y ≤ 1979) by omega)]
    by_cases hb2 : y ≤ 2099
    · rw [if_pos (show 1980 ≤ y ∧ y ≤ 2099 by omega)]
      rw [if_neg (show ¬(23248800 + 242194 * (y - 1980) -
          1000000 * ((y - 1980) / 4)) / 1000000 < 0 by omega)]
      omega
    · rw [if_neg (show ¬(1980 ≤ y ∧ y ≤ 2099) by omega),
        if_pos (show 2100 ≤ y ∧ y ≤ 2150 by omega)]
      rw [if_neg (show ¬(24248800 + 242194 * (y - 1980) -
          1000000 * ((y - 1980) / 4)) / 1000000 < 0 by omega)]
      omega

/-- C7: outside the legal validity range the equinox approximators
degrade to "no holiday": for years at most 1948 both functions return
day 0, for years beyond 2150 the coefficient is 0 and the computed
(saturated) day is 0, and since a valid calendar day is never 0 the two
equinox rules report no holiday for any representable date in those
years. -/
theorem equinox_validity_degrade :
    (∀ y : Int, y ≤ 1948 → vernal_equinox_day y = 0 ∧ autumnal_equinox_day y = 0) ∧
    (∀ y : Int, 2150 < y → vernal_equinox_day y = 0 ∧ autumnal_equinox_day y = 0) ∧
    (∀ d : Date, d.valid = true → (d.year ≤ 1948 ∨ 2150 < d.year) →
      VernalEquinoxDay.is_holiday d = false ∧ AutumnalEquinoxDay.is_holiday d = false) := by
  refine ⟨fun y h => ⟨vernal_equinox_day_degrade y (Or.inl h),
      autumnal_equinox_day_degrade y (Or.inl h)⟩,
    fun y h => ⟨vernal_equinox_day_degrade y (Or.inr h),
      autumnal_equinox_day_degrade y (Or.inr h)⟩,
    fun d hv h => ?_⟩
  have h1 := vernal_equinox_day_degrade d.year h
  have h2 := autumnal_equinox_day_degrade d.year h
  rw [Date.valid_iff] at hv
  constructor
  · simp only [VernalEquinoxDay, h1]
    rw [if_neg]
    simp only [Bool.and_eq_true, beq_iff_eq, not_and]
    omega
  · simp only [AutumnalEquinoxDay, h2]
    rw [if_neg]
    simp only [Bool.and_eq_true, beq_iff_eq, not_and]
    omega

/-- Witness for C7 at concrete years and a concrete date. -/
theorem equinox_validity_degrade_witness :
    vernal_equinox_day 1900 = 0 ∧ autumnal_equinox_day 2151 = 0 ∧
    AutumnalEquinoxDay.is_holiday ⟨2200, 9, 23⟩ = false :=
  ⟨(equinox_validity_degrade.1 1900 (by norm_num)).1,
   (equinox_validity_degrade.2.1 2151 (by norm_num)).2,
   (equinox_validity_degrade.2.2 ⟨2200, 9, 23⟩ (by decide) (Or.inr (by norm_num))).2⟩

/-- C10: for every valid date and weekday `k`, `week_day` with week 1-4
always returns a date (the first four occurrences of any weekday fit in
the month), so the `.unwrap()` calls inside the rules (weeks 2 and 3)
never panic and `weekDayDay` never takes its panic-default branch. -/
theorem week_day_low_weeks_total (d : Date) (hv : d.valid = true) (w k : Nat)
    (hw : 1 ≤ w ∧ w ≤ 4) (hk : 1 ≤ k ∧ k ≤ 7) :
    week_day d w k =
      some (some ⟨d.year, d.month, 1 + firstWeekdayOffset d k + 7 * (w - 1)⟩) ∧
    weekDayDay d w k = 1 + firstWeekdayOffset d k + 7 * (w - 1) := by
  have hoff := firstWeekdayOffset_lt d k
  have hml := monthLength_bounds d.year d.month
  have h := week_day_in_month d hv w k (by omega) hk (by omega)
  refine ⟨h, ?_⟩
  unfold weekDayDay
  rw [h]

/-- Witness for C10: the repository's own unit-test case
`week_day(2024-09-11, 3, 1) == Some(2024-09-16)`. -/
theorem week_day_low_weeks_total_witness :
    week_day ⟨2024, 9, 11⟩ 3 1 = some (some ⟨2024, 9, 16⟩) :=
  ((week_day_low_weeks_total ⟨2024, 9, 11⟩ (by decide) 3 1 (by decide) (by decide)).1).trans
    (by decide)

/-- The behaviour of `week_day` as described by the specification:
`none` for out-of-range `week`/`weekday`, otherwise the first occurrence
of the requested weekday plus `week - 1` weeks, or `none` if that target
day falls outside the month. -/
def weekDaySpec (date : Date) (week weekday : Nat) : Option Date :=
  if ¬(1 ≤ week ∧ week ≤ 5) then none
  else if ¬(1 ≤ weekday ∧ weekday ≤ 7) then none
  else
    let target := 1 + firstWeekdayOffset date weekday + 7 * (week - 1)
    if target ≤ monthLength date.year date.month then
      some ⟨date.year, date.month, target⟩
    else none

/-- `1 + firstWeekdayOffset d k` really is an occurrence of weekday `k`
(it falls on weekday `k`), certifying the "first occurrence" reading. -/
theorem firstWeekdayOffset_weekday (d : Date) (k : Nat) (hk : 1 ≤ k ∧ k ≤ 7) :
    (Date.mk d.year d.month (1 + firstWeekdayOffset d k)).weekdayFromMonday = k := by
  unfold firstWeekdayOffset Date.weekdayFromMonday
  rw [Date.toRataDie_day d.year d.month]
  have h1 : 0 ≤ ((Date.mk d.year d.month 1).toRataDie + 3) % 7 :=
    Int.emod_nonneg _ (by norm_num)
  have h2 : ((Date.mk d.year d.month 1).toRataDie + 3) % 7 < 7 :=
    Int.emod_lt_of_pos _ (by norm_num)
  omega

/-- C6 (amended): away from the maximum-date overflow corner
(`year = 262143`, `month = 12`, `week = 5`, where the Rust code panics
instead of returning `None`), `week_day` behaves exactly as the
specification describes. -/
theorem week_day_matches_spec (d : Date) (hv : d.valid = true) (w k : Nat)
    (hsafe : ¬(d.year = MAX_YEAR ∧ d.month = 12 ∧ w = 5)) :
    week_day d w k = some (weekDaySpec d w k) := by
  have hoff := firstWeekdayOffset_lt d k
  have hml := monthLength_bounds d.year d.month
  by_cases hw : 1 ≤ w ∧ w ≤ 5
  · by_cases hk : 1 ≤ k ∧ k ≤ 7
    · by_cases ht : 1 + firstWeekdayOffset d k + 7 * (w - 1) ≤ monthLength d.year d.month
      · rw [week_day_in_month d hv w k hw hk ht]
        unfold weekDaySpec
        rw [if_neg (not_not_intro hw), if_neg (not_not_intro hk)]
        simp only
        rw [if_pos ht]
      · rw [week_day_next_month d hv w k hw hk (by omega) (by
          rintro ⟨hm12, hymax⟩
          exact hsafe ⟨hymax, hm12, by omega⟩)]
        unfold weekDaySpec
        rw [if_neg (not_not_intro hw), if_neg (not_not_intro hk)]
        simp only
        rw [if_neg ht]
    · unfold week_day weekDaySpec
      rw [if_neg (not_not_intro hw), if_neg (not_not_intro hw), if_pos hk, if_pos hk]
  · unfold week_day weekDaySpec
    rw [if_pos hw, if_pos hw]

/-- Witness for C6's amended theorem at the repository's unit-test
input. -/
theorem week_day_matches_spec_witness :
    week_day ⟨2024, 9, 11⟩ 3 1 = some (weekDaySpec ⟨2024, 9, 11⟩ 3 1) :=
  week_day_matches_spec ⟨2024, 9, 11⟩ (by decide) 3 1 (by decide)

/-- C6 counterexample: in the last representable month a fifth-occurrence
request whose target overflows the representable range makes the Rust
code panic (`NaiveDate + Duration` overflow, modelled by the outer
`none`), whereas the claim requires the graceful answer
`weekDaySpec = none` (i.e. `some none` here): 262143-12-01 is a Sunday,
so the first Saturday is December 7 and the fifth would be January 4 of
a year beyond the representable range. -/
theorem week_day_overflow_counterexample :
    week_day ⟨262143, 12, 1⟩ 5 6 ≠ some (weekDaySpec ⟨262143, 12, 1⟩ 5 6) := by decide

/-- C4: for every representable date, at most one member of the
23-element rule array `HOLIDAYS` reports `is_holiday` (in particular
for every date in years 1900 through 2150).  The September case rests
on the equinox-day bounds (the autumnal equinox day is always 22-24 in
1949-2150 and 0 outside), the January/October cases on the
second-Monday bounds (day 8-14), and the remaining months on the
statutory year windows and fixed days. -/
theorem at_most_one_rule_matches (d : Date) (hv : d.valid = true) :
    (HOLIDAYS.filter (fun h => h.is_holiday d)).length ≤ 1 := by
  have hv' := hv
  rw [Date.valid_iff] at hv'
  obtain ⟨y, m, dd⟩ := d
  simp only [Date.year, Date.month, Date.day] at hv'
  obtain ⟨hy1, hy2, hm1, hm2, hd1, hd2⟩ := hv'
  rw [← List.countP_eq_length_filter]
  interval_cases m <;>
    simp only [HOLIDAYS, NewYearsDay, ComingOfAgeDay, NationalFoundationDay, EmperorsBirthday,
      VernalEquinoxDay, GreeneryDay, ShowaDay, ConstitutionMemorialDay, ChildrensDay, MarineDay,
      MountainDay, RespectForTheAgedDay, AutumnalEquinoxDay, HealthAndSportsDay, SportsDay,
      CultureDay, LaborThanksgivingDay, ImperialEventsTheWeddingCeremonyOfCrownPrinceAkihito,
      ImperialEventsTheFuneralOfEmperorShowa,
      ImperialEventsTheCeremonyOfTheEnthronementOfTheEmperor,
      ImperialEventsTheWeddingCeremonyOfCrownPrinceNaruhito,
      ImperialEventsTheDayOfTheEmperorsEnthronement, ImperialEventsTheEnthronementCeremony,
      List.countP_cons, List.countP_nil, Date.year, Date.month, Date.day,
      beq_iff_eq, Date.mk.injEq, Bool.and_eq_true, decide_eq_true_eq] <;>
    norm_num [beq_iff_eq, Date.mk.injEq]
  · -- January: New Year vs Coming-of-Age (day 15 or 2nd Monday, day 8-14)
    have hb := weekDayDay_bounds ⟨y, 1, dd⟩ hv 2 (by norm_num)
    split_ifs <;> omega
  · -- February: days 24 / 23 / 11
    split_ifs <;> omega
  · -- March: vernal equinox only
    split_ifs <;> omega
  · -- April: day 10 vs day 29 in disjoint year windows
    split_ifs <;> omega
  · -- May: days 1 / 5 / 3 / 4
    split_ifs <;> omega
  · -- June: single imperial wedding date
    split_ifs <;> omega
  · -- July: Marine vs Sports (2020: 23 vs 24, 2021: 22 vs 23, else no overlap)
    split_ifs <;> omega
  · -- August: Mountain Day only
    split_ifs <;> omega
  · -- September: Respect-for-the-Aged (15, or 3rd Monday 15-21) vs equinox (0 or 22-24)
    have hb := weekDayDay_bounds ⟨y, 9, dd⟩ hv 3 (by norm_num)
    by_cases hy : 1949 ≤ y ∧ y ≤ 2150
    · have ha := autumnal_equinox_day_bounds y hy.1 hy.2
      split_ifs <;> omega
    · have ha : autumnal_equinox_day y = 0 := autumnal_equinox_day_degrade y (by omega)
      split_ifs <;> omega
  · -- October: enthronement 2019-10-22 vs 2nd-Monday rules (day 8-14, disjoint years)
    have hb := weekDayDay_bounds ⟨y, 10, dd⟩ hv 2 (by norm_num)
    split_ifs <;> omega
  · -- November: days 12 / 23 / 3
    split_ifs <;> omega
  · -- December: Emperor's Birthday only
    split_ifs <;> omega

/-- Witness for C4 at a concrete date. -/
theorem at_most_one_rule_matches_witness :
    (HOLIDAYS.filter (fun h => h.is_holiday ⟨2024, 1, 1⟩)).length ≤ 1 :=
  at_most_one_rule_matches ⟨2024, 1, 1⟩ (by decide)

/-! ## Termination and characterization of the substitute-holiday scan -/

theorem subLoop_mono : ∀ f g : Nat, ∀ (c : Date) (r : Option String),
    subLoop c f = some r → f ≤ g → subLoop c g = some r := by
  intro f
  induction f with
  | zero => intro g c r h _; simp [subLoop] at h
  | succ f ih =>
    intro g c r h hfg
    obtain ⟨g', rfl⟩ : ∃ g', g = g' + 1 := ⟨g - 1, by omega⟩
    rw [subLoop] at h
    rw [subLoop]
    cases hm : HOLIDAYS.filter (fun h => h.is_holiday c) with
    | nil => rw [hm] at h; exact h
    | cons hol rest =>
      rw [hm] at h
      replace h : (if (c.weekdayFromMonday == 7) = true
          then some (some (hol.name ++ " 振替休日"))
          else match c.pred? with
            | some c' => subLoop c' f
            | none => none) = some r := h
      show (if (c.weekdayFromMonday == 7) = true
          then some (some (hol.name ++ " 振替休日"))
          else match c.pred? with
            | some c' => subLoop c' g'
            | none => none) = some r
      by_cases hs : c.weekdayFromMonday == 7
      · rw [if_pos hs] at h; rw [if_pos hs]; exact h
      · rw [if_neg hs] at h; rw [if_neg hs]
        cases hp : c.pred? with
        | none =>
          rw [hp] at h
          exact absurd h (by simp)
        | some c' =>
          rw [hp] at h
          exact ih g' c' r h (by omega)

theorem subLoop_isSome : ∀ (f : Nat) (c : Date), c.valid = true →
    MIN_YEAR + f ≤ c.year → ((c.toRataDie + 4) % 7).toNat < f →
    (subLoop c f).isSome = true := by
  intro f
  induction f with
  | zero => intro c _ _ h3; exact absurd h3 (by omega)
  | succ f ih =>
    intro c hv hy h3
    rw [subLoop]
    cases hm : HOLIDAYS.filter (fun h => h.is_holiday c) with
    | nil => rfl
    | cons hol rest =>
      show (if (c.weekdayFromMonday == 7) = true
          then some (some (hol.name ++ " 振替休日"))
          else match c.pred? with
            | some c' => subLoop c' f
            | none => none).isSome = true
      by_cases hs : c.weekdayFromMonday == 7
      · rw [if_pos hs]; rfl
      · rw [if_neg hs]
        have hpred : c.pred?.isSome := Date.pred?_isSome c (by omega)
        cases hp : c.pred? with
        | none => rw [hp] at hpred; exact absurd hpred (by simp)
        | some c' =>
          show (subLoop c' f).isSome = true
          have hz := Date.toRataDie_pred? c c' hv hp
          have hv' := Date.pred?_valid c c' hv hp
          have hyr := Date.pred?_year c c' hp
          apply ih c' hv' (by omega)
          have hnots : ¬(c.weekdayFromMonday = 7) := by
            simpa using hs
          unfold Date.weekdayFromMonday at hnots
          rw [hz]
          have e1 : 0 ≤ (c.toRataDie + 3) % 7 := Int.emod_nonneg _ (by norm_num)
          have e2 : (c.toRataDie + 3) % 7 < 7 := Int.emod_lt_of_pos _ (by norm_num)
          have e3 : 0 ≤ (c.toRataDie + 4) % 7 := Int.emod_nonneg _ (by norm_num)
          have e4 : (c.toRataDie + 4) % 7 < 7 := Int.emod_lt_of_pos _ (by norm_num)
          omega

/-- C8: the backward scan of `substitute_holiday` always stops within
the first 7 visited days (any 7 consecutive days contain a Sunday, and
visiting a Sunday stops the loop either way), so the loop always
returns: for every input date reaching the loop, the fuel-7 unfolding
is already a result, and any larger fuel computes the same result. -/
theorem substitute_holiday_terminates (d : Date) (hv : d.valid = true)
    (hy : 1973 ≤ d.year) (c : Date) (hc : d.pred? = some c) :
    (subLoop c 7).isSome = true ∧ ∀ f : Nat, 7 ≤ f → subLoop c f = subLoop c 7 := by
  have hv' := Date.pred?_valid d c hv hc
  have hyr := Date.pred?_year d c hc
  have e3 : 0 ≤ (c.toRataDie + 4) % 7 := Int.emod_nonneg _ (by norm_num)
  have e4 : (c.toRataDie + 4) % 7 < 7 := Int.emod_lt_of_pos _ (by norm_num)
  have h7 : (subLoop c 7).isSome = true :=
    subLoop_isSome 7 c hv' (by unfold MIN_YEAR; omega) (by omega)
  refine ⟨h7, fun f hf => ?_⟩
  obtain ⟨r, hr⟩ := Option.isSome_iff_exists.mp h7
  rw [hr, subLoop_mono 7 f c r hr hf]

/-- Witness for C8: the scan from 2024-09-23 (whose predecessor
2024-09-22 is a Sunday equinox holiday) stops within fuel 7. -/
theorem substitute_holiday_terminates_witness :
    (subLoop ⟨2024, 9, 22⟩ 7).isSome = true :=
  (substitute_holiday_terminates ⟨2024, 9, 23⟩ (by decide) (by norm_num)
    ⟨2024, 9, 22⟩ (by decide)).1

/-- The day `n` days before `d` (iterated `pred_opt`), used to state what
the backward scan of `substitute_holiday` visits. -/
def backs (d : Date) : Nat → Option Date
  | 0 => some d
  | n + 1 => (backs d n).bind Date.pred?

theorem backs_shift (d c : Date) (hc : d.pred? = some c) :
    ∀ n : Nat, backs d (n + 1) = backs c n := by
  intro n
  induction n with
  | zero => show (some d).bind Date.pred? = some c; simpa using hc
  | succ n ih => show (backs d (n + 1)).bind Date.pred? = (backs c n).bind Date.pred?; rw [ih]

theorem backs_isSome_le (d : Date) : ∀ p q : Nat, p ≤ q →
    (backs d q).isSome = true → (backs d p).isSome = true := by
  intro p q
  induction q with
  | zero => intro hpq h; have : p = 0 := by omega
            rw [this]; exact h
  | succ q ih =>
    intro hpq h
    by_cases hp : p = q + 1
    · rw [hp]; exact h
    · replace h : ((backs d q).bind Date.pred?).isSome = true := h
      apply ih (by omega)
      cases hq : backs d q with
      | none => rw [hq] at h; exact absurd h (by simp)
      | some e => rfl

theorem backs_facts (d : Date) (hv : d.valid = true) : ∀ (n : Nat) (c : Date),
    backs d n = some c →
      c.valid = true ∧ c.toRataDie = d.toRataDie - n ∧
      d.year - n ≤ c.year ∧ c.year ≤ d.year := by
  intro n
  induction n with
  | zero =>
    intro c h
    replace h : some d = some c := h
    cases h
    refine ⟨hv, by omega, by omega, by omega⟩
  | succ n ih =>
    intro c h
    replace h : (backs d n).bind Date.pred? = some c := h
    cases he : backs d n with
    | none => rw [he] at h; exact absurd h (by simp)
    | some e =>
      rw [he] at h
      replace h : e.pred? = some c := h
      obtain ⟨hev, hez, hey1, hey2⟩ := ih e he
      have h1 := Date.pred?_valid e c hev h
      have h2 := Date.toRataDie_pred? e c hev h
      have h3 := Date.pred?_year e c h
      refine ⟨h1, by push_cast; omega, by push_cast; omega, by omega⟩

theorem firstHolidayName_filter : ∀ (l : List PublicHoliday) (d : Date),
    firstHolidayName l d =
      ((l.filter (fun h => h.is_holiday d)).head?).map PublicHoliday.name := by
  intro l d
  induction l with
  | nil => rfl
  | cons hol rest ih =>
    by_cases hp : hol.is_holiday d
    · rw [show firstHolidayName (hol :: rest) d =
          (if hol.is_holiday d then some hol.name else firstHolidayName rest d) from rfl]
      rw [if_pos hp, List.filter_cons, if_pos hp]
      rfl
    · rw [show firstHolidayName (hol :: rest) d =
          (if hol.is_holiday d then some hol.name else firstHolidayName rest d) from rfl]
      rw [if_neg hp, List.filter_cons, if_neg hp, ih]

theorem subLoop_walk : ∀ (k fuel : Nat) (c ck : Date), backs c k = some ck → k < fuel →
    (∀ j, j < k → ∀ cj : Date, backs c j = some cj →
      HOLIDAYS.filter (fun h => h.is_holiday cj) ≠ [] ∧ cj.weekdayFromMonday ≠ 7) →
    ((HOLIDAYS.filter (fun h => h.is_holiday ck) = [] → subLoop c fuel = some none) ∧
     (∀ hol rest, HOLIDAYS.filter (fun h => h.is_holiday ck) = hol :: rest →
        ck.weekdayFromMonday = 7 →
        subLoop c fuel = some (some (hol.name ++ " 振替休日")))) := by
  intro k
  induction k with
  | zero =>
    intro fuel c ck hk hfuel _
    replace hk : some c = some ck := hk
    cases hk
    obtain ⟨f, rfl⟩ : ∃ f, fuel = f + 1 := ⟨fuel - 1, by omega⟩
    constructor
    · intro hfil
      rw [subLoop]
      rw [hfil]
    · intro hol rest hfil hsun
      rw [subLoop, hfil]
      show (if (c.weekdayFromMonday == 7) = true
          then some (some (hol.name ++ " 振替休日"))
          else match c.pred? with
            | some c' => subLoop c' f
            | none => none) = _
      rw [if_pos (by simp [hsun])]
  | succ k ih =>
    intro fuel c ck hk hfuel hpre
    obtain ⟨f, rfl⟩ : ∃ f, fuel = f + 1 := ⟨fuel - 1, by omega⟩
    have h0 := hpre 0 (by omega) c rfl
    have h1 : (backs c 1).isSome = true := by
      apply backs_isSome_le c 1 (k + 1) (by omega)
      rw [hk]; rfl
    cases hc : c.pred? with
    | none =>
      replace h1 : ((some c).bind Date.pred?).isSome = true := h1
      rw [show (some c).bind Date.pred? = c.pred? from rfl, hc] at h1
      exact absurd h1 (by simp)
    | some c' =>
      have hshift := backs_shift c c' hc
      have hstep : subLoop c (f + 1) = subLoop c' f := by
        rw [subLoop]
        cases hm : HOLIDAYS.filter (fun h => h.is_holiday c) with
        | nil => exact absurd hm h0.1
        | cons hol rest =>
          show (if (c.weekdayFromMonday == 7) = true
              then some (some (hol.name ++ " 振替休日"))
              else match c.pred? with
                | some e => subLoop e f
                | none => none) = _
          rw [if_neg (by simp [h0.2]), hc]
      rw [hstep]
      apply ih f c' ck (by rw [← hshift]; exact hk) (by omega)
      intro j hj cj hcj
      exact hpre (j + 1) (by omega) cj (by rw [hshift]; exact hcj)

/-- C2: full behavioural specification of `substitute_holiday`.
It returns `none` for years before 1973 and for Sundays; otherwise, for
any run of visited days `d-1, ..., d-k` that all match some rule on a
non-Sunday, the scan's answer at the next visited day `d-(k+1)` is:
`none` if no rule matches it, and the first matching rule's name with
" 振替休日" appended if it is a Sunday matched by at least one rule. -/
theorem substitute_holiday_spec (d : Date) (hv : d.valid = true) :
    (d.year < 1973 → substitute_holiday d = none) ∧
    (d.weekdayFromMonday = 7 → substitute_holiday d = none) ∧
    (1973 ≤ d.year → d.weekdayFromMonday ≠ 7 →
      ∀ (k : Nat) (ck : Date), backs d (k + 1) = some ck →
        (∀ j, j < k → ∀ cj : Date, backs d (j + 1) = some cj →
          HOLIDAYS.filter (fun h => h.is_holiday cj) ≠ [] ∧ cj.weekdayFromMonday ≠ 7) →
        ((HOLIDAYS.filter (fun h => h.is_holiday ck) = [] → substitute_holiday d = none) ∧
         (ck.weekdayFromMonday = 7 →
           substitute_holiday d =
             (firstHolidayName HOLIDAYS ck).map (fun n => n ++ " 振替休日")))) := by
  refine ⟨fun hy => ?_, fun hs => ?_, fun hy hs k ck hk hpre => ?_⟩
  · unfold substitute_holiday
    rw [if_pos hy]
  · unfold substitute_holiday
    by_cases hy : d.year < 1973
    · rw [if_pos hy]
    · rw [if_neg hy, if_pos (by simp [hs])]
  · -- the scan: first bound k by the position of the first Sunday
    have e1 : 0 ≤ (d.toRataDie + 4) % 7 := Int.emod_nonneg _ (by norm_num)
    have e2 : (d.toRataDie + 4) % 7 < 7 := Int.emod_lt_of_pos _ (by norm_num)
    have e3 : 0 ≤ (d.toRataDie + 3) % 7 := Int.emod_nonneg _ (by norm_num)
    have e4 : (d.toRataDie + 3) % 7 < 7 := Int.emod_lt_of_pos _ (by norm_num)
    have hns : (d.toRataDie + 3) % 7 ≠ 6 := by
      unfold Date.weekdayFromMonday at hs
      omega
    have hk6 : k ≤ 5 := by
      by_contra hgt
      -- the visit at index i0 = (z + 4) % 7 ∈ 1..6 is a Sunday,
      -- contradicting the all-non-Sunday prefix
      set i0 : Nat := ((d.toRataDie + 4) % 7).toNat with hi0
      have hi1 : 1 ≤ i0 ∧ i0 ≤ 6 := by omega
      have hsome : (backs d i0).isSome = true := by
        apply backs_isSome_le d i0 (k + 1) (by omega)
        rw [hk]; rfl
      obtain ⟨ci, hci⟩ := Option.isSome_iff_exists.mp hsome
      obtain ⟨hciv, hciz, -, -⟩ := backs_facts d hv i0 ci hci
      obtain ⟨-, hcis⟩ := hpre (i0 - 1) (by omega) ci
        (by rw [show i0 - 1 + 1 = i0 by omega]; exact hci)
      apply hcis
      unfold Date.weekdayFromMonday
      rw [hciz]
      have e5 : 0 ≤ (d.toRataDie - i0 + 3) % 7 := Int.emod_nonneg _ (by norm_num)
      have e6 : (d.toRataDie - i0 + 3) % 7 < 7 := Int.emod_lt_of_pos _ (by norm_num)
      omega
    have h1 : (backs d 1).isSome = true := by
      apply backs_isSome_le d 1 (k + 1) (by omega)
      rw [hk]; rfl
    cases hc : d.pred? with
    | none =>
      replace h1 : ((some d).bind Date.pred?).isSome = true := h1
      rw [show (some d).bind Date.pred? = d.pred? from rfl, hc] at h1
      exact absurd h1 (by simp)
    | some c0 =>
      have hshift := backs_shift d c0 hc
      have hsub : substitute_holiday d = (subLoop c0 7).getD none := by
        unfold substitute_holiday
        rw [if_neg (by omega), if_neg (by simp [hs]), hc]
      have hwalk := subLoop_walk k 7 c0 ck (by rw [← hshift]; exact hk) (by omega)
        (fun j hj cj hcj => hpre j (by omega) cj (by rw [hshift]; exact hcj))
      constructor
      · intro hfil
        rw [hsub, hwalk.1 hfil]
        rfl
      · intro hsun
        cases hfil : HOLIDAYS.filter (fun h => h.is_holiday ck) with
        | nil =>
          rw [hsub, hwalk.1 hfil, firstHolidayName_filter, hfil]
          rfl
        | cons hol rest =>
          rw [hsub, hwalk.2 hol rest hfil hsun, firstHolidayName_filter, hfil]
          rfl

/-- Witness for C2: 2024-09-23 (Monday); its predecessor 2024-09-22 is
a Sunday matched by the autumnal-equinox rule, so the substitute holiday
is "秋分の日 振替休日". -/
theorem substitute_holiday_spec_witness :
    substitute_holiday ⟨2024, 9, 23⟩ =
      (firstHolidayName HOLIDAYS ⟨2024, 9, 22⟩).map (fun n => n ++ " 振替休日") :=
  ((substitute_holiday_spec ⟨2024, 9, 23⟩ (by decide)).2.2 (by norm_num) (by decide)
    0 ⟨2024, 9, 22⟩ (by decide)
    (fun j hj cj _ => absurd hj (Nat.not_lt_zero j))).2 (by decide)

theorem calc_holiday_without_national_holiday_eq (d : Date) :
    calc_holiday_without_national_holiday d =
      match firstHolidayName HOLIDAYS d with
      | some n => some n
      | none => substitute_holiday d := by
  unfold calc_holiday_without_national_holiday
  cases firstHolidayName HOLIDAYS d with
  | some n => rfl
  | none => cases substitute_holiday d with
    | some n => rfl
    | none => rfl

/-- C1: the top-level determination `calc_holiday` follows exactly the
specified order: first match of the rule set, else the substitute
resolver, else `none` on Sundays, else the fixed label 国民の休日 when
the non-bridging resolver names both calendar neighbours, else `none`. -/
theorem calc_holiday_spec (d : Date) (hv : d.valid = true) :
    calc_holiday d =
      match firstHolidayName HOLIDAYS d with
      | some n => some n
      | none =>
        match substitute_holiday d with
        | some n => some n
        | none =>
          if d.weekdayFromMonday = 7 then none
          else if (d.pred?.bind calc_holiday_without_national_holiday).isSome &&
                  (d.succ?.bind calc_holiday_without_national_holiday).isSome
               then some "国民の休日"
               else none := by
  unfold calc_holiday
  rw [calc_holiday_without_national_holiday_eq d]
  cases hf : firstHolidayName HOLIDAYS d with
  | some n => rfl
  | none =>
    cases hsub : substitute_holiday d with
    | some n => rfl
    | none =>
      by_cases hs : d.weekdayFromMonday = 7
      · rw [if_pos (by simp [hs]), if_pos hs]
      · rw [if_neg (by simp [hs]), if_neg hs]
        cases hsucc : d.succ? with
        | none =>
          cases hpred : d.pred? with
          | none => rfl
          | some prev => simp
        | some next =>
          cases hpred : d.pred? with
          | none => simp
          | some prev =>
            show (if (calc_holiday_without_national_holiday next).isSome &&
                (calc_holiday_without_national_holiday prev).isSome
              then some "国民の休日" else none) = _
            rw [Bool.and_comm]
            rfl

/-- Witness for C1 at 2019-04-30, a citizen's-holiday bridge day. -/
theorem calc_holiday_spec_witness :
    calc_holiday ⟨2019, 4, 30⟩ =
      match firstHolidayName HOLIDAYS ⟨2019, 4, 30⟩ with
      | some n => some n
      | none =>
        match substitute_holiday ⟨2019, 4, 30⟩ with
        | some n => some n
        | none =>
          if (Date.mk 2019 4 30).weekdayFromMonday = 7 then none
          else if ((Date.mk 2019 4 30).pred?.bind calc_holiday_without_national_holiday).isSome &&
                  ((Date.mk 2019 4 30).succ?.bind calc_holiday_without_national_holiday).isSome
               then some "国民の休日"
               else none :=
  calc_holiday_spec ⟨2019, 4, 30⟩ (by decide)

theorem month_entry_fst (year : Int) (m day : Nat) (x : Date × String)
    (hx : (match fromYmd? year m day with
          | some date => (holiday_name (some date)).map (fun name => (date, name))
          | none => (none : Option (Date × String))) = some x) :
    x.1 = ⟨year, m, day⟩ := by
  cases hf : fromYmd? year m day with
  | none => rw [hf] at hx; exact absurd hx (by simp)
  | some d0 =>
    rw [hf] at hx
    have hd0 : d0 = ⟨year, m, day⟩ := by
      unfold fromYmd? at hf
      split at hf
      · cases hf; rfl
      · cases hf
    replace hx : (holiday_name (some d0)).map (fun name => (d0, name)) = some x := hx
    rw [Option.map_eq_some'] at hx
    obtain ⟨name, -, hxe⟩ := hx
    rw [← hxe, hd0]

theorem Date.lt_mk_day (y : Int) (m a b : Nat) (h : a < b) :
    Date.lt ⟨y, m, a⟩ ⟨y, m, b⟩ = true := by
  simp only [Date.lt, Date.year, Date.month, Date.day, beq_self_eq_true, Bool.true_and,
    Bool.or_eq_true, decide_eq_true_eq, Bool.and_eq_true, beq_iff_eq]
  omega

theorem Date.lt_mk_month (y : Int) (m1 m2 a b : Nat) (h : m1 < m2) :
    Date.lt ⟨y, m1, a⟩ ⟨y, m2, b⟩ = true := by
  simp only [Date.lt, Date.year, Date.month, Date.day, beq_self_eq_true, Bool.true_and,
    Bool.or_eq_true, decide_eq_true_eq, Bool.and_eq_true, beq_iff_eq]
  omega

/-- C9: `year_holidays y` is exactly the month-by-month concatenation of
`month_holidays y m` for `m = 1, ..., 12`, and the combined list is in
strictly increasing date order (hence has no duplicate dates). -/
theorem year_holidays_structure (year : Int) :
    year_holidays year =
      ((List.range' 1 12).map (fun month => month_holidays year month)).flatten ∧
    (year_holidays year).Pairwise (fun a b => Date.lt a.1 b.1 = true) := by
  constructor
  · rfl
  · unfold year_holidays
    rw [List.pairwise_flatMap]
    constructor
    · intro m _
      rw [List.pairwise_filterMap]
      apply List.Pairwise.imp ?_ (List.pairwise_lt_range' 1 31)
      intro a b hab x hx y hy
      rw [Option.mem_def] at hx hy
      rw [month_entry_fst year m a x hx, month_entry_fst year m b y hy]
      exact Date.lt_mk_day year m a b hab
    · apply List.Pairwise.imp ?_ (List.pairwise_lt_range' 1 12)
      intro m1 m2 h12 x hx y hy
      rw [List.mem_filterMap] at hx hy
      obtain ⟨da, -, hfa⟩ := hx
      obtain ⟨db, -, hfb⟩ := hy
      rw [month_entry_fst year m1 da x hfa, month_entry_fst year m2 db y hfb]
      exact Date.lt_mk_month year m1 m2 da db h12

/-- C5 counterexample: two fatal paths.  `between` with both bounds at
the maximum representable date panics (`date.succ_opt().unwrap()` after
processing the last day — modelled by `none`), and `is_no_workday`
panics on an input the date adapter rejects
(`date.date().unwrap()` on `None`). -/
theorem core_fatal_counterexample :
    between (some ⟨262143, 12, 31⟩) (some ⟨262143, 12, 31⟩) = none ∧
    is_no_workday none = none := by
  constructor
  · decide
  · rfl

/-- C5 (amended): the `Option`-returning determination surface is
non-fatal — `holiday_name` returns `none` for unparseable input and
`is_no_workday` always returns a boolean on parseable input — but
`is_no_workday` propagates a fatal `unwrap` panic on input the adapter
rejects, and `between` panics when its scan needs the day after the
maximum representable date. -/
theorem core_nonfatal_amended :
    (∀ d : Date, (is_no_workday (some d)).isSome = true) ∧
    (∀ input : Option Date, holiday_name input = input.bind calc_holiday) ∧
    holiday_name none = none ∧
    is_no_workday none = none ∧
    between (some ⟨262143, 12, 31⟩) (some ⟨262143, 12, 31⟩) = none := by
  refine ⟨fun d => rfl, fun input => rfl, rfl, rfl, by decide⟩

set_option maxHeartbeats 8000000 in
/-- C3: the spec's literal concrete scenarios: New Year 2024, a
non-bridged gap day in 1992, the two 2019 citizen's-holiday bridges,
21 holidays in 2024, and 3 holidays in September 2024. -/
theorem concrete_scenarios :
    holiday_name (some ⟨2024, 1, 1⟩) = some "元日" ∧
    holiday_name (some ⟨1992, 5, 6⟩) = none ∧
    holiday_name (some ⟨2019, 4, 30⟩) = some "国民の休日" ∧
    holiday_name (some ⟨2019, 5, 2⟩) = some "国民の休日" ∧
    (month_holidays 2024 9).length = 3 ∧
    (year_holidays 2024).length = 21 := by
  refine ⟨by decide, by decide, by decide, by decide, by decide, by decide⟩

/-- Witness for C5's amended theorem at a concrete parseable input. -/
theorem core_nonfatal_amended_witness :
    (is_no_workday (some ⟨2024, 1, 1⟩)).isSome = true :=
  core_nonfatal_amended.1 ⟨2024, 1, 1⟩

/-- Witness for C9 at year 2024. -/
theorem year_holidays_structure_witness :
    year_holidays 2024 =
      ((List.range' 1 12).map (fun month => month_holidays 2024 month)).flatten :=
  (year_holidays_structure 2024).1
